import Mathlib

/-!
Formal model of the flight telemetry server (`Source.cpp` of
`rt_flight_telemetry_monitor`).

The server's per-connection pipeline (`handleClient`) is embedded shallowly:

* raw bytes are `Nat` values (0–255); a received chunk is a `List Nat`;
* `double` fuel values and consumption rates are modelled as exact
  rationals `ℚ` (IEEE rounding is outside the model); `time_t` is `Int`;
* the C-string append `recvBuffer += buffer` (after
  `buffer[bytesReceived] = '\0'`) is modelled by `cstrTruncate`, which
  drops everything from the first NUL byte of a chunk on;
* the helpers declared in `Parse.h` (`trim`, `parseTelemetryData`,
  `TelemetryDataPoint`) are not part of the repository sources, so the
  parser and `mktime` are taken as parameters and `trim` is modelled from
  the specification;
* the console output of a session is modelled as a list of structured
  `OutLine` events together with a byte-level rendering `renderLine`
  mirroring the `cout` statements (numeric formatting of `double`s is a
  parameter `showQ`).
-/

/-- Bytes of an ASCII string literal, as a list of code points. -/
def ascii (s : String) : List Nat := s.data.map Char.toNat

/-- Models the C-string append `recvBuffer += buffer` after
`buffer[bytesReceived] = '\0'` (Source.cpp lines 60–61 and 76–77): the
appended bytes are those of the chunk up to, and excluding, its first
NUL byte. -/
def cstrTruncate : List Nat → List Nat
  | [] => []
  | b :: bs => if b = 0 then [] else b :: cstrTruncate bs

/-- Prepends a byte to the first complete line of a framer result when
there is one, else to the carry-over buffer. -/
def consLine (b : Nat) : List (List Nat) × List Nat → List (List Nat) × List Nat
  | ([], carry) => ([], b :: carry)
  | (l :: ls, carry) => ((b :: l) :: ls, carry)

/-- Models the line-extraction loop of Source.cpp lines 81–83:
repeatedly split the buffer at the first newline (byte 10); returns the
complete lines in order (newlines stripped) and the remaining
carry-over buffer. -/
def extractLines : List Nat → List (List Nat) × List Nat
  | [] => ([], [])
  | b :: bs =>
    if b = 10 then ([] :: (extractLines bs).1, (extractLines bs).2)
    else consLine b (extractLines bs)

/-- Reassembles a framer result: each record followed by a newline, then
the carry-over buffer (the round-trip reading of the spec). -/
def glue (ls : List (List Nat)) (carry : List Nat) : List Nat :=
  (ls.map (fun l => l ++ [10])).flatten ++ carry

/-- Runs the framer over a sequence of received chunks starting from a
carry-over buffer: each chunk is appended (with C-string truncation) and
all complete lines are split off; returns all records in order and the
final carry-over. -/
def framerRun : List Nat → List (List Nat) → List (List Nat) × List Nat
  | buf, [] => ([], buf)
  | buf, c :: cs =>
    let p := extractLines (buf ++ cstrTruncate c)
    let q := framerRun p.2 cs
    (p.1 ++ q.1, q.2)

/-- Whitespace bytes, as classified by `isspace` in the C locale. -/
def isWS (b : Nat) : Bool :=
  b = 32 || b = 9 || b = 10 || b = 11 || b = 12 || b = 13

/-- Modelled from the spec: `trim` is declared in `Parse.h`, which is not
among the repository sources; per the spec it strips leading and trailing
whitespace from a record. -/
def trim (l : List Nat) : List Nat :=
  ((l.dropWhile isWS).reverse.dropWhile isWS).reverse

/-- Modelled from the spec: the `struct tm` timestamp produced by the
parser declared in `Parse.h` (not among the repository sources), with the
fields consumed by `asctime`. `year` counts from 1900 as in C. -/
structure Tm where
  sec : Nat
  min : Nat
  hour : Nat
  mday : Nat
  mon : Nat
  year : Nat
  wday : Nat
deriving DecidableEq

/-- Modelled from the spec: the record produced by `parseTelemetryData`
(declared in `Parse.h`, not among the repository sources): a timestamp
and the remaining fuel. -/
structure TelemetryDataPoint where
  timestamp : Tm
  fuelRemaining : ℚ
deriving DecidableEq

/-- The per-flight state of Source.cpp lines 34–41, with its default
constructor values. -/
structure FlightData where
  startTime : Int
  startFuel : ℚ
  lastTime : Int
  lastFuel : ℚ
  firstData : Bool
deriving DecidableEq

/-- The freshly constructed `FlightData` of Source.cpp line 40. -/
def FlightData.init : FlightData :=
  { startTime := 0, startFuel := 0, lastTime := 0, lastFuel := 0, firstData := true }

/-- One accepted reading, Source.cpp lines 101–122: on the first reading
record it as the start (and, through lines 121–122, as the last) and emit
nothing; otherwise compute the consumption rate, guarded to `0` when the
elapsed time is not strictly positive, emit it, and update the last
reading. -/
def acceptReading (flight : FlightData) (currentTime : Int) (currentFuel : ℚ) :
    FlightData × Option ℚ :=
  if flight.firstData then
    ({ startTime := currentTime, startFuel := currentFuel,
       lastTime := currentTime, lastFuel := currentFuel, firstData := false }, none)
  else
    let fuelConsumed := flight.lastFuel - currentFuel
    let timeDiff : ℚ := ((currentTime - flight.lastTime : Int) : ℚ)
    let consumptionRate := if timeDiff > 0 then fuelConsumed / timeDiff else 0
    ({ flight with lastTime := currentTime, lastFuel := currentFuel },
     some consumptionRate)

/-- Session finalization, Source.cpp lines 127–129: the average
consumption over the whole flight, `0` when the total time is not
strictly positive. -/
def finalizeFlight (flight : FlightData) : ℚ :=
  let totalFuelConsumed := flight.startFuel - flight.lastFuel
  let totalTime : ℚ := ((flight.lastTime - flight.startTime : Int) : ℚ)
  if totalTime > 0 then totalFuelConsumed / totalTime else 0

/-- Folds `acceptReading` over a list of accepted readings
`(timestamp, fuel)`, collecting the emitted rates in order. -/
def runReadings : FlightData → List (Int × ℚ) → FlightData × List ℚ
  | fl, [] => (fl, [])
  | fl, (t, f) :: rs =>
    let p := acceptReading fl t f
    let q := runReadings p.1 rs
    (q.1, p.2.toList ++ q.2)

/-- Follows the spec's words for the per-reading rates: for each
consecutive pair of accepted readings, `(prevFuel - curFuel) / elapsed`
when `elapsed > 0`, else `0`. -/
def specRates : List (Int × ℚ) → List ℚ
  | [] => []
  | [_] => []
  | a :: b :: rs =>
    (if ((b.1 - a.1 : Int) : ℚ) > 0 then (a.2 - b.2) / ((b.1 - a.1 : Int) : ℚ) else 0)
      :: specRates (b :: rs)

/-- Follows the spec's words for the session average: fuel consumed
between the first and the last accepted reading over the elapsed time,
`0` when that time is not strictly positive (hence `0` for zero or one
reading). -/
def specAverage : List (Int × ℚ) → ℚ
  | [] => 0
  | r :: rs =>
    let l := rs.getLastD r
    if ((l.1 - r.1 : Int) : ℚ) > 0 then (r.2 - l.2) / ((l.1 - r.1 : Int) : ℚ) else 0

/-- Models Source.cpp lines 64–67: split the accumulated buffer at its
first newline into the identifier and the remainder, when a newline is
present. -/
def splitAtNewline? (buf : List Nat) : Option (List Nat × List Nat) :=
  if (10 : Nat) ∈ buf then
    some (buf.takeWhile (fun b => b ≠ 10), (buf.dropWhile (fun b => b ≠ 10)).tail)
  else none

/-- Models the identifier phase, Source.cpp lines 54–67: accumulate
chunks (C-string truncated) until the buffer holds a newline; returns the
identifier, the remainder of the buffer and the chunks not yet consumed,
or `none` when the stream ends first (the session is then discarded
silently, line 56–59). -/
def awaitId (buf : List Nat) :
    List (List Nat) → Option (List Nat × List Nat × List (List Nat))
  | [] => (splitAtNewline? buf).map (fun p => (p.1, p.2, ([] : List (List Nat))))
  | c :: cs =>
    match splitAtNewline? buf with
    | some p => some (p.1, p.2, c :: cs)
    | none => awaitId (buf ++ cstrTruncate c) cs

/-- One console message of the session, in emission order. -/
inductive OutLine where
  | connected (id : List Nat)
  | reading (id : List Nat) (tm : Tm) (fuel : ℚ) (rate : ℚ)
  | parseFail (line : List Nat)
  | summary (id : List Nat) (avg : ℚ)
deriving DecidableEq

/-- The airplane identifier carried by a console message, when it has
one (the parse-failure message carries none). -/
def eventId : OutLine → Option (List Nat)
  | .connected i => some i
  | .reading i _ _ _ => some i
  | .parseFail _ => none
  | .summary i _ => some i

/-- Recognizes the parse-failure log message among the console
messages. -/
def isParseFailure : OutLine → Bool
  | .parseFail _ => true
  | _ => false

/-- Processing of one extracted line, Source.cpp lines 85–122:
whitespace-only lines are skipped, a parse failure is logged and skipped,
and a parsed reading is fed to the tracker, emitting a reading message
for every non-first reading. `p` is the parser of `Parse.h`, `m` is
`mktime`. -/
def processLine (p : List Nat → Option TelemetryDataPoint) (m : Tm → Int)
    (id : List Nat) (fl : FlightData) (line : List Nat) : FlightData × List OutLine :=
  if trim line = [] then (fl, [])
  else
    match p line with
    | none => (fl, [OutLine.parseFail line])
    | some dp =>
      let r := acceptReading fl (m dp.timestamp) dp.fuelRemaining
      (r.1,
       match r.2 with
       | none => []
       | some rate => [OutLine.reading id dp.timestamp dp.fuelRemaining rate])

/-- Processes a list of extracted lines in order, threading the flight
state and concatenating the emitted messages. -/
def processLines (p : List Nat → Option TelemetryDataPoint) (m : Tm → Int)
    (id : List Nat) : FlightData → List (List Nat) → FlightData × List OutLine
  | fl, [] => (fl, [])
  | fl, l :: ls =>
    let a := processLine p m id fl l
    let b := processLines p m id a.1 ls
    (b.1, a.2 ++ b.2)

/-- The streaming loop, Source.cpp lines 75–124: for each successfully
received chunk, append it (C-string truncated) to the buffer, split off
all complete lines and process them; the final carry-over is discarded
when the stream ends. -/
def streamChunks (p : List Nat → Option TelemetryDataPoint) (m : Tm → Int)
    (id : List Nat) : FlightData → List Nat → List (List Nat) → FlightData × List OutLine
  | fl, _, [] => (fl, [])
  | fl, buf, c :: cs =>
    let e := extractLines (buf ++ cstrTruncate c)
    let a := processLines p m id fl e.1
    let b := streamChunks p m id a.1 e.2 cs
    (b.1, a.2 ++ b.2)

/-- The whole per-connection handler, Source.cpp lines 46–139, over the
sequence of chunks delivered by `recv` (the empty suffix standing for
end-of-stream): read the identifier, announce the connection, stream the
telemetry, and report the session average. -/
def handleClient (p : List Nat → Option TelemetryDataPoint) (m : Tm → Int)
    (chunks : List (List Nat)) : List OutLine :=
  match awaitId [] chunks with
  | none => []
  | some (id, rest, cs) =>
    let r := streamChunks p m id FlightData.init rest cs
    OutLine.connected id :: (r.2 ++ [OutLine.summary id (finalizeFlight r.1)])

/-- Decimal digits of a natural number, as ASCII bytes. -/
def renderNat (n : Nat) : List Nat := ascii (toString n)

/-- The `%.2d` formatting used by `asctime`: at least two digits, zero
padded. -/
def padZero2 (n : Nat) : List Nat :=
  if n < 10 then [48, 48 + n] else renderNat n

/-- The `%3d` formatting used by `asctime` for the day of the month:
width three, space padded. -/
def padSpace3 (n : Nat) : List Nat :=
  if n < 10 then [32, 32] ++ renderNat n
  else if n < 100 then [32] ++ renderNat n
  else renderNat n

/-- The weekday names of the C library `asctime`. -/
def wdayName (w : Nat) : List Nat :=
  ascii ((["Sun", "Mon", "Tue", "Wed", "Thu", "Fri", "Sat"].getD w ("???")))

/-- The month names of the C library `asctime`. -/
def monName (m : Nat) : List Nat :=
  ascii ((["Jan", "Feb", "Mar", "Apr", "May", "Jun", "Jul", "Aug", "Sep",
           "Oct", "Nov", "Dec"].getD m ("???")))

/-- The 24 characters of the C library `asctime` before its newline:
`Www Mmm dd hh:mm:ss yyyy`, per the C standard's reference
implementation. -/
def asctimeChars (t : Tm) : List Nat :=
  wdayName t.wday ++ [32] ++ monName t.mon ++ padSpace3 t.mday ++ [32] ++
    padZero2 t.hour ++ [58] ++ padZero2 t.min ++ [58] ++ padZero2 t.sec ++
    [32] ++ renderNat (1900 + t.year)

/-- Models the C library `asctime` called at Source.cpp line 115: the
textual timestamp, which per the C standard ends with a newline
character. -/
def asctime (t : Tm) : List Nat := asctimeChars t ++ [10]

/-- Byte-level rendering of the four `cout` statements of Source.cpp
(lines 71, 93, 114–117 and 133–135). `showQ` stands for the iostream
formatting of a `double`; `endl` is the final byte 10 of each message. -/
def renderLine (showQ : ℚ → List Nat) : OutLine → List Nat
  | .connected id => ascii ("Connected client, airplane ID: ") ++ id ++ [10]
  | .reading id tm fuel rate =>
    ascii ("Airplane ") ++ id ++ ascii (" | ") ++ asctime tm ++
      ascii (" Fuel Remaining: ") ++ showQ fuel ++
      ascii (" | Current Consumption: ") ++ showQ rate ++
      ascii (" fuel/sec") ++ [10]
  | .parseFail line => ascii ("Failed to parse telemetry data: ") ++ line ++ [10]
  | .summary id avg =>
    ascii ("Flight for airplane ") ++ id ++
      ascii (" ended. Average Fuel Consumption: ") ++ showQ avg ++
      ascii (" fuel/sec") ++ [10]

/-- A sample timestamp used to instantiate the parser parameter in
concrete evaluations. -/
def tmA : Tm := { sec := 0, min := 0, hour := 0, mday := 1, mon := 0, year := 125, wday := 3 }

/-- A second sample timestamp, ten seconds after `tmA`. -/
def tmB : Tm := { tmA with sec := 10 }

/-- A concrete instance of the parser parameter: the byte `A` parses to
a reading at time 0 with fuel 100, the byte `B` to one at time 10 with
fuel 95, everything else fails. -/
def pDemo : List Nat → Option TelemetryDataPoint := fun l =>
  if l = [65] then some { timestamp := tmA, fuelRemaining := 100 }
  else if l = [66] then some { timestamp := tmB, fuelRemaining := 95 }
  else none

/-- A concrete instance of the `mktime` parameter matching `tmA`/`tmB`:
the timestamp is read off the seconds field. -/
def mDemo : Tm → Int := fun t => (t.sec : Int)

theorem cstrTruncate_of_not_mem (c : List Nat) (h : (0 : Nat) ∉ c) :
    cstrTruncate c = c := by
  induction c with
  | nil => rfl
  | cons b bs ih =>
    simp only [List.mem_cons, not_or] at h
    simp [cstrTruncate, Ne.symm h.1, ih h.2]

theorem extractLines_cons_newline (bs : List Nat) :
    extractLines (10 :: bs) = ([] :: (extractLines bs).1, (extractLines bs).2) := by
  simp [extractLines]

theorem extractLines_cons_ne (b : Nat) (bs : List Nat) (h : b ≠ 10) :
    extractLines (b :: bs) = consLine b (extractLines bs) := by
  simp [extractLines, h]

theorem extractLines_glue (s : List Nat) :
    glue (extractLines s).1 (extractLines s).2 = s := by
  induction s with
  | nil => rfl
  | cons b bs ih =>
    by_cases hb : b = 10
    · subst hb
      rw [extractLines_cons_newline]
      simpa [glue] using ih
    · rcases he : extractLines bs with ⟨ls, carry⟩
      rw [he] at ih
      rw [extractLines_cons_ne b bs hb, he]
      cases ls with
      | nil => simpa [glue, consLine] using congrArg (b :: ·) ih
      | cons l ls' => simpa [glue, consLine] using congrArg (b :: ·) ih

theorem extractLines_append (a b : List Nat) :
    extractLines (a ++ b) =
      ((extractLines a).1 ++ (extractLines ((extractLines a).2 ++ b)).1,
       (extractLines ((extractLines a).2 ++ b)).2) := by
  induction a with
  | nil => simp [extractLines]
  | cons x xs ih =>
    by_cases hx : x = 10
    · subst hx
      rw [List.cons_append, extractLines_cons_newline, extractLines_cons_newline, ih]
      simp
    · rcases he : extractLines xs with ⟨ls, r⟩
      rw [he] at ih
      simp only at ih
      cases ls with
      | nil =>
        rw [List.cons_append, extractLines_cons_ne x _ hx, ih,
          extractLines_cons_ne x _ hx, he]
        rcases h2 : extractLines (r ++ b) with ⟨ls2, r2⟩
        simp only [consLine, List.nil_append, List.cons_append]
        rw [extractLines_cons_ne x _ hx, h2]
        cases ls2 <;> simp [consLine]
      | cons l ls' =>
        rw [List.cons_append, extractLines_cons_ne x _ hx, ih,
          extractLines_cons_ne x _ hx, he]
        rcases h2 : extractLines (r ++ b) with ⟨ls2, r2⟩
        simp [consLine, h2]

theorem framerRun_glue (cs : List (List Nat)) (buf : List Nat)
    (h : ∀ c ∈ cs, (0 : Nat) ∉ c) :
    glue (framerRun buf cs).1 (framerRun buf cs).2 = buf ++ cs.flatten := by
  induction cs generalizing buf with
  | nil => simp [framerRun, glue]
  | cons c cs' ih =>
    have hc : cstrTruncate c = c := cstrTruncate_of_not_mem c (h c (by simp))
    have ih' := ih (extractLines (buf ++ c)).2 (fun d hd => h d (by simp [hd]))
    have hrt := extractLines_glue (buf ++ c)
    simp only [framerRun, hc, glue, List.map_append, List.flatten_append,
      List.append_assoc]
    simp only [glue] at ih' hrt
    rw [ih', ← List.append_assoc, hrt]
    simp


theorem processLines_append (p : List Nat → Option TelemetryDataPoint)
    (m : Tm → Int) (id : List Nat) (fl : FlightData) (l1 l2 : List (List Nat)) :
    processLines p m id fl (l1 ++ l2) =
      ((processLines p m id (processLines p m id fl l1).1 l2).1,
       (processLines p m id fl l1).2 ++
         (processLines p m id (processLines p m id fl l1).1 l2).2) := by
  induction l1 generalizing fl with
  | nil => simp [processLines]
  | cons l ls ih => simp [processLines, ih]

theorem streamChunks_cons (p : List Nat → Option TelemetryDataPoint)
    (m : Tm → Int) (id : List Nat) (fl : FlightData) (buf c : List Nat)
    (cs : List (List Nat)) :
    streamChunks p m id fl buf (c :: cs) =
      ((streamChunks p m id
          (processLines p m id fl (extractLines (buf ++ cstrTruncate c)).1).1
          (extractLines (buf ++ cstrTruncate c)).2 cs).1,
       (processLines p m id fl (extractLines (buf ++ cstrTruncate c)).1).2 ++
         (streamChunks p m id
           (processLines p m id fl (extractLines (buf ++ cstrTruncate c)).1).1
           (extractLines (buf ++ cstrTruncate c)).2 cs).2) := rfl

theorem streamChunks_eq_processLines (p : List Nat → Option TelemetryDataPoint)
    (m : Tm → Int) (id : List Nat) (cs : List (List Nat)) (fl : FlightData)
    (buf : List Nat) (h : cs ≠ []) :
    streamChunks p m id fl buf cs =
      processLines p m id fl
        (extractLines (buf ++ (cs.map cstrTruncate).flatten)).1 := by
  induction cs generalizing fl buf with
  | nil => exact absurd rfl h
  | cons c cs' ih =>
    cases cs' with
    | nil => simp [streamChunks, processLines]
    | cons d ds =>
      have hrec := ih
        (processLines p m id fl (extractLines (buf ++ cstrTruncate c)).1).1
        (extractLines (buf ++ cstrTruncate c)).2 (by simp)
      have hsplit :
          extractLines (buf ++ ((c :: d :: ds).map cstrTruncate).flatten) =
            ((extractLines (buf ++ cstrTruncate c)).1 ++
              (extractLines ((extractLines (buf ++ cstrTruncate c)).2 ++
                (((d :: ds).map cstrTruncate).flatten))).1,
             (extractLines ((extractLines (buf ++ cstrTruncate c)).2 ++
               (((d :: ds).map cstrTruncate).flatten))).2) := by
        rw [List.map_cons, List.flatten_cons, ← List.append_assoc]
        exact extractLines_append (buf ++ cstrTruncate c)
          (((d :: ds).map cstrTruncate).flatten)
      rw [streamChunks_cons, hrec, hsplit, processLines_append]

theorem getLast?_cons_eq_getLastD (r : Int × ℚ) (rs : List (Int × ℚ)) :
    (r :: rs).getLast? = some (rs.getLastD r) := by
  induction rs generalizing r with
  | nil => rfl
  | cons s rs' ih => rw [List.getLast?_cons_cons, ih, List.getLastD_cons]

theorem runReadings_state (rs : List (Int × ℚ)) (fl : FlightData)
    (h : fl.firstData = false) :
    (runReadings fl rs).1 =
      { startTime := fl.startTime, startFuel := fl.startFuel,
        lastTime := (rs.getLastD (fl.lastTime, fl.lastFuel)).1,
        lastFuel := (rs.getLastD (fl.lastTime, fl.lastFuel)).2,
        firstData := false } := by
  induction rs generalizing fl with
  | nil =>
    cases fl
    simp only [List.getLastD, runReadings]
    simp at h
    simp [h]
  | cons r rs' ih =>
    rcases r with ⟨t, f⟩
    simp only [runReadings, acceptReading, h, Bool.false_eq_true, if_false]
    rw [ih _ rfl]
    simp only [FlightData.mk.injEq, true_and, and_true]
    rw [List.getLastD_cons, List.getLastD_eq_getLast?]
    exact ⟨rfl, rfl⟩

theorem runReadings_events (rs : List (Int × ℚ)) (fl : FlightData)
    (h : fl.firstData = false) :
    (runReadings fl rs).2 = specRates ((fl.lastTime, fl.lastFuel) :: rs) := by
  induction rs generalizing fl with
  | nil => simp [runReadings, specRates]
  | cons r rs' ih =>
    rcases r with ⟨t, f⟩
    simp only [runReadings, acceptReading, h, Bool.false_eq_true, if_false]
    rw [ih _ rfl]
    simp [specRates]

theorem runReadings_events_length (rs : List (Int × ℚ)) (fl : FlightData)
    (h : fl.firstData = false) :
    (runReadings fl rs).2.length = rs.length := by
  induction rs generalizing fl with
  | nil => simp [runReadings]
  | cons r rs' ih =>
    rcases r with ⟨t, f⟩
    simp only [runReadings, acceptReading, h, Bool.false_eq_true, if_false]
    simp only [Option.toList_some, List.length_append, List.length_cons,
      List.length_nil, List.singleton_append, List.length_cons]
    rw [ih _ rfl]


theorem takeWhile_append_of_mem (a b : List Nat) (h : (10 : Nat) ∈ a) :
    (a ++ b).takeWhile (fun x => x ≠ 10) = a.takeWhile (fun x => x ≠ 10) := by
  induction a with
  | nil => simp at h
  | cons x xs ih =>
    by_cases hx : x = 10
    · subst hx
      rw [List.cons_append, List.takeWhile_cons_of_neg (by simp),
        List.takeWhile_cons_of_neg (by simp)]
    · have hmem : (10 : Nat) ∈ xs := by
        rcases List.mem_cons.mp h with h1 | h1
        · exact absurd h1.symm hx
        · exact h1
      rw [List.cons_append, List.takeWhile_cons_of_pos (by simp [hx]),
        List.takeWhile_cons_of_pos (by simp [hx]), ih hmem]

theorem awaitId_found (chunks : List (List Nat)) (buf : List Nat)
    (hbuf : (10 : Nat) ∉ buf)
    (hN : ∀ c ∈ chunks, (0 : Nat) ∉ c)
    (h10 : (10 : Nat) ∈ chunks.flatten) :
    ∃ rest cs, awaitId buf chunks =
      some ((buf ++ chunks.flatten).takeWhile (fun b => b ≠ 10), rest, cs) := by
  induction chunks generalizing buf with
  | nil => simp at h10
  | cons c cs ih =>
    have hc : cstrTruncate c = c := cstrTruncate_of_not_mem c (hN c (by simp))
    have hsplitbuf : splitAtNewline? buf = none := by simp [splitAtNewline?, hbuf]
    have hflat : buf ++ (c :: cs).flatten = (buf ++ c) ++ cs.flatten := by
      simp [List.flatten_cons]
    by_cases h : (10 : Nat) ∈ buf ++ c
    · have hsplit2 : splitAtNewline? (buf ++ c) =
          some ((buf ++ c).takeWhile (fun b => b ≠ 10),
            ((buf ++ c).dropWhile (fun b => b ≠ 10)).tail) := by
        simp [splitAtNewline?, h]
      have htw : ((buf ++ c) ++ cs.flatten).takeWhile (fun b => b ≠ 10) =
          (buf ++ c).takeWhile (fun b => b ≠ 10) :=
        takeWhile_append_of_mem (buf ++ c) cs.flatten h
      cases cs with
      | nil =>
        refine ⟨((buf ++ c).dropWhile (fun b => b ≠ 10)).tail, [], ?_⟩
        simp [awaitId, hsplitbuf, hc, hsplit2, hflat, htw]
      | cons d ds =>
        refine ⟨((buf ++ c).dropWhile (fun b => b ≠ 10)).tail, d :: ds, ?_⟩
        simp only [awaitId, hsplitbuf, hc, hsplit2, hflat, htw]
    · have h10c : (10 : Nat) ∉ c := fun hm => h (List.mem_append.mpr (Or.inr hm))
      have h10' : (10 : Nat) ∈ cs.flatten := by
        rw [List.flatten_cons] at h10
        rcases List.mem_append.mp h10 with h1 | h1
        · exact absurd h1 h10c
        · exact h1
      have hrec := ih (buf ++ c) h (fun d hd => hN d (List.mem_cons_of_mem c hd)) h10'
      rcases hrec with ⟨rest, cs', hrec⟩
      refine ⟨rest, cs', ?_⟩
      simp only [awaitId, hsplitbuf, hc, hflat]
      exact hrec

theorem processLine_eventId (p : List Nat → Option TelemetryDataPoint)
    (m : Tm → Int) (id : List Nat) (fl : FlightData) (l : List Nat) :
    ∀ e ∈ (processLine p m id fl l).2, eventId e = some id ∨ eventId e = none := by
  intro e he
  by_cases ht : trim l = []
  · simp [processLine, ht] at he
  · cases hp : p l with
    | none =>
      simp [processLine, ht, hp] at he
      subst he
      exact Or.inr rfl
    | some dp =>
      cases hr : (acceptReading fl (m dp.timestamp) dp.fuelRemaining).2 with
      | none => simp [processLine, ht, hp, hr] at he
      | some rate =>
        simp [processLine, ht, hp, hr] at he
        subst he
        exact Or.inl rfl

theorem processLines_eventId (p : List Nat → Option TelemetryDataPoint)
    (m : Tm → Int) (id : List Nat) (ls : List (List Nat)) (fl : FlightData) :
    ∀ e ∈ (processLines p m id fl ls).2, eventId e = some id ∨ eventId e = none := by
  induction ls generalizing fl with
  | nil => intro e he; simp [processLines] at he
  | cons l ls' ih =>
    intro e he
    simp only [processLines, List.mem_append] at he
    rcases he with he | he
    · exact processLine_eventId p m id fl l e he
    · exact ih _ e he

theorem streamChunks_eventId (p : List Nat → Option TelemetryDataPoint)
    (m : Tm → Int) (id : List Nat) (cs : List (List Nat)) (fl : FlightData)
    (buf : List Nat) :
    ∀ e ∈ (streamChunks p m id fl buf cs).2, eventId e = some id ∨ eventId e = none := by
  induction cs generalizing fl buf with
  | nil => intro e he; simp [streamChunks] at he
  | cons c cs' ih =>
    intro e he
    rw [streamChunks_cons] at he
    simp only [List.mem_append] at he
    rcases he with he | he
    · exact processLines_eventId p m id _ fl e he
    · exact ih _ _ e he

theorem handleClient_eventId (p : List Nat → Option TelemetryDataPoint)
    (m : Tm → Int) (chunks : List (List Nat)) (id rest : List Nat)
    (cs : List (List Nat)) (h : awaitId [] chunks = some (id, rest, cs)) :
    ∀ e ∈ handleClient p m chunks, ∀ i, eventId e = some i → i = id := by
  intro e he i hi
  simp only [handleClient, h] at he
  rcases List.mem_cons.mp he with he | he
  · subst he
    simp [eventId] at hi
    exact hi.symm
  · rcases List.mem_append.mp he with he | he
    · rcases streamChunks_eventId p m id cs FlightData.init rest e he with h1 | h1
      · rw [h1] at hi
        exact (Option.some_inj.mp hi).symm
      · rw [h1] at hi
        exact absurd hi (by simp)
    · rcases List.mem_singleton.mp he with rfl
      simp [eventId] at hi
      exact hi.symm

theorem acceptReading_init (t : Int) (f : ℚ) :
    acceptReading FlightData.init t f =
      ({ startTime := t, startFuel := f, lastTime := t, lastFuel := f,
         firstData := false }, none) := rfl

/-- C1: for every accepted reading after the first in a session, the
emitted consumption rate equals `(lastFuel - currentFuel) /
(currentTime - lastTime)` when the elapsed time is strictly positive and
`0` otherwise; the emitted rates of a whole session coincide with the
spec's per-consecutive-pair formula, and the computation is a total
function on ℚ (no exception, no infinity: division is only taken when
the denominator is strictly positive). -/
theorem c1_rate_refines_spec (rs : List (Int × ℚ)) :
    (runReadings FlightData.init rs).2 = specRates rs := by
  cases rs with
  | nil => rfl
  | cons r rs' =>
    rcases r with ⟨t, f⟩
    simp only [runReadings, acceptReading_init, Option.toList_none, List.nil_append]
    exact runReadings_events rs' _ rfl

/-- C2: at session end the reported average equals
`(startFuel - lastFuel) / (lastTime - startTime)` when the total time is
strictly positive and `0` otherwise — equivalently, the spec's formula
over the first and last accepted reading of the session; for a session
with zero or exactly one accepted reading, start equals last, the total
time is zero and the average is `0`. Finalization is a total function
(it never fails or throws). -/
theorem c2_finalize_refines_spec :
    (∀ rs : List (Int × ℚ),
      finalizeFlight (runReadings FlightData.init rs).1 = specAverage rs) ∧
    (∀ (t : Int) (f : ℚ),
      (runReadings FlightData.init [(t, f)]).1.startTime =
          (runReadings FlightData.init [(t, f)]).1.lastTime ∧
      (runReadings FlightData.init [(t, f)]).1.startFuel =
          (runReadings FlightData.init [(t, f)]).1.lastFuel ∧
      finalizeFlight (runReadings FlightData.init [(t, f)]).1 = 0) ∧
    finalizeFlight (runReadings FlightData.init []).1 = 0 := by
  refine ⟨?_, ?_, ?_⟩
  · intro rs
    cases rs with
    | nil => simp [runReadings, FlightData.init, finalizeFlight, specAverage]
    | cons r rs' =>
      rcases r with ⟨t, f⟩
      simp only [runReadings, acceptReading_init]
      rw [runReadings_state rs' _ rfl]
      simp [finalizeFlight, specAverage]
  · intro t f
    refine ⟨rfl, rfl, ?_⟩
    simp [runReadings, acceptReading_init, finalizeFlight]
  · simp [runReadings, FlightData.init, finalizeFlight]

/-- C3: the first accepted reading of a session is recorded as both
start and last and emits no event (the run on `(t, f) :: rs` equals the
run on `rs` from the state holding `(t, f)` as both start and last, so
nothing is emitted for the first reading); consequently a session that
accepts exactly `N` readings emits exactly `N - 1` per-reading
consumption events (`0` for `N = 0`). -/
theorem c3_first_reading_no_event :
    (∀ (t : Int) (f : ℚ) (rs : List (Int × ℚ)),
      runReadings FlightData.init ((t, f) :: rs) =
        runReadings { startTime := t, startFuel := f, lastTime := t,
                      lastFuel := f, firstData := false } rs) ∧
    (∀ rs : List (Int × ℚ),
      (runReadings FlightData.init rs).2.length = rs.length - 1) := by
  constructor
  · intro t f rs
    simp [runReadings, acceptReading_init]
  · intro rs
    cases rs with
    | nil => rfl
    | cons r rs' =>
      rcases r with ⟨t, f⟩
      simp only [runReadings, acceptReading_init, Option.toList_none,
        List.nil_append, List.length_cons]
      rw [runReadings_events_length rs' _ rfl]
      simp

/-- C7: after each accepted reading (that is, for every nonempty prefix
`rs` of a session's accepted readings), `lastTime`/`lastFuel` equal the
timestamp and fuel of the most recently accepted reading and
`startTime`/`startFuel` equal those of the first accepted reading — so
the start fields are never modified by any later reading. -/
theorem c7_tracker_state_invariant (rs : List (Int × ℚ)) (r0 rl : Int × ℚ)
    (h0 : rs.head? = some r0) (hl : rs.getLast? = some rl) :
    (runReadings FlightData.init rs).1.firstData = false ∧
    (runReadings FlightData.init rs).1.startTime = r0.1 ∧
    (runReadings FlightData.init rs).1.startFuel = r0.2 ∧
    (runReadings FlightData.init rs).1.lastTime = rl.1 ∧
    (runReadings FlightData.init rs).1.lastFuel = rl.2 := by
  cases rs with
  | nil => simp at h0
  | cons r rs' =>
    rcases r with ⟨t, f⟩
    simp only [List.head?_cons, Option.some_inj] at h0
    subst h0
    rw [getLast?_cons_eq_getLastD] at hl
    simp only [Option.some_inj] at hl
    subst hl
    simp only [runReadings, acceptReading_init]
    rw [runReadings_state rs' _ rfl]
    simp

/-- Witness for C7 at the concrete session
`(t=0, fuel=100), (t=10, fuel=95)`. -/
theorem c7_witness :
    (([((0 : Int), (100 : ℚ)), (10, 95)] : List (Int × ℚ)).head? =
        some ((0 : Int), (100 : ℚ))) ∧
    (([((0 : Int), (100 : ℚ)), (10, 95)] : List (Int × ℚ)).getLast? =
        some ((10 : Int), (95 : ℚ))) ∧
    ((runReadings FlightData.init [((0 : Int), (100 : ℚ)), (10, 95)]).1.firstData = false ∧
     (runReadings FlightData.init [((0 : Int), (100 : ℚ)), (10, 95)]).1.startTime = 0 ∧
     (runReadings FlightData.init [((0 : Int), (100 : ℚ)), (10, 95)]).1.startFuel = 100 ∧
     (runReadings FlightData.init [((0 : Int), (100 : ℚ)), (10, 95)]).1.lastTime = 10 ∧
     (runReadings FlightData.init [((0 : Int), (100 : ℚ)), (10, 95)]).1.lastFuel = 95) :=
  ⟨by decide, by decide,
    c7_tracker_state_invariant [((0 : Int), (100 : ℚ)), (10, 95)]
      ((0 : Int), (100 : ℚ)) ((10 : Int), (95 : ℚ)) (by decide) (by decide)⟩

/-- C4 counterexample: a single chunk `A NUL B` is truncated at the NUL
by the C-string append, so the framer's records-plus-carry-over do not
reconstruct the original three bytes — the byte stream is not preserved
for arbitrary byte chunks. -/
theorem c4_counterexample :
    glue (framerRun [] [[65, 0, 66]]).1 (framerRun [] [[65, 0, 66]]).2 ≠
      ([[65, 0, 66]] : List (List Nat)).flatten := by decide

/-- C4 (amended): for every sequence of byte chunks none of which
contains a NUL byte, however the input is split, the framer neither
reorders nor drops bytes: the concatenation of the emitted records each
followed by a newline, plus the final carry-over buffer, reconstructs
the original byte stream exactly. -/
theorem c4_framer_roundtrip (chunks : List (List Nat))
    (h : ∀ c ∈ chunks, (0 : Nat) ∉ c) :
    glue (framerRun [] chunks).1 (framerRun [] chunks).2 = chunks.flatten := by
  simpa using framerRun_glue chunks [] h

/-- Witness for the amended C4 on the chunks `["A\n", "B"]`. -/
theorem c4_witness :
    (∀ c ∈ ([[65, 10], [66]] : List (List Nat)), (0 : Nat) ∉ c) ∧
    glue (framerRun [] [[65, 10], [66]]).1 (framerRun [] [[65, 10], [66]]).2 =
      ([[65, 10], [66]] : List (List Nat)).flatten :=
  ⟨by decide, c4_framer_roundtrip [[65, 10], [66]] (by decide)⟩

/-- C5 counterexample: the client sends the identifier `I` and two
complete, parseable records `A` and `B` in one chunk and closes. The
records stay in the buffer after the identifier's newline and are
complete and parseable, yet the session output holds no reading event
and no parse-failure — the line-processing loop only runs after a
further successful `recv`, so the records are silently discarded. -/
theorem c5_counterexample :
    handleClient pDemo mDemo [[73, 10, 65, 10, 66, 10]] =
      [OutLine.connected [73], OutLine.summary [73] 0] ∧
    (extractLines [65, 10, 66, 10]).1 = [[65], [66]] ∧
    (pDemo [65]).isSome = true ∧ (pDemo [66]).isSome = true ∧
    trim [65] ≠ [] ∧ trim [66] ≠ [] := by decide

/-- C5 (amended): all bytes received after the newline terminating the
session identifier are retained in the framing buffer, and every
complete newline-terminated record among them (including those that
arrived in the same chunk as the identifier) is parsed and processed —
provided at least one further chunk is received; when the client closes
without sending further bytes, the retained records are silently
discarded and the session reports only the connection and a zero
average. -/
theorem c5_amended_streaming (p : List Nat → Option TelemetryDataPoint)
    (m : Tm → Int) (chunks : List (List Nat)) (id rest : List Nat)
    (cs : List (List Nat)) (h : awaitId [] chunks = some (id, rest, cs)) :
    (cs = [] → handleClient p m chunks =
      [OutLine.connected id, OutLine.summary id 0]) ∧
    (cs ≠ [] → handleClient p m chunks =
      OutLine.connected id ::
        ((processLines p m id FlightData.init
            (extractLines (rest ++ (cs.map cstrTruncate).flatten)).1).2 ++
          [OutLine.summary id (finalizeFlight
            (processLines p m id FlightData.init
              (extractLines (rest ++ (cs.map cstrTruncate).flatten)).1).1)])) := by
  constructor
  · intro hcs
    subst hcs
    simp only [handleClient, h, streamChunks]
    simp [finalizeFlight, FlightData.init]
  · intro hcs
    simp only [handleClient, h]
    rw [streamChunks_eq_processLines p m id cs FlightData.init rest hcs]

/-- Witness for the amended C5: identifier chunk `"I\n"` followed by a
telemetry chunk `"A\nB\n"`; both records are processed and the summary
reports the average `1/2`. -/
theorem c5_witness :
    awaitId [] [[73, 10], [65, 10, 66, 10]] = some ([73], [], [[65, 10, 66, 10]]) ∧
    handleClient pDemo mDemo [[73, 10], [65, 10, 66, 10]] =
      OutLine.connected [73] ::
        ((processLines pDemo mDemo [73] FlightData.init
            (extractLines ([] ++ (([[65, 10, 66, 10]] :
              List (List Nat)).map cstrTruncate).flatten)).1).2 ++
          [OutLine.summary [73] (finalizeFlight
            (processLines pDemo mDemo [73] FlightData.init
              (extractLines ([] ++ (([[65, 10, 66, 10]] :
                List (List Nat)).map cstrTruncate).flatten)).1).1)]) :=
  ⟨by decide,
    (c5_amended_streaming pDemo mDemo [[73, 10], [65, 10, 66, 10]] [73] []
        [[65, 10, 66, 10]] (by decide)).2 (by decide)⟩

theorem processLine_parsed_no_fail (p : List Nat → Option TelemetryDataPoint)
    (m : Tm → Int) (id : List Nat) (fl : FlightData) (l : List Nat)
    (d : TelemetryDataPoint) (h : p l = some d) :
    (processLine p m id fl l).2.countP isParseFailure = 0 := by
  by_cases ht : trim l = []
  · simp [processLine, ht]
  · cases hr : (acceptReading fl (m d.timestamp) d.fuelRemaining).2 with
    | none => simp [processLine, ht, h, hr]
    | some rate => simp [processLine, ht, h, hr, isParseFailure]

/-- C6: a malformed record between two valid records produces exactly
one parse-failure log entry, does not terminate the session (the second
valid record is still processed) and leaves the tracker state exactly as
the two valid readings alone would. The parser and `mktime` are
universally quantified because `Parse.h` is not among the repository
sources. -/
theorem c6_malformed_between_valid (p : List Nat → Option TelemetryDataPoint)
    (m : Tm → Int) (id : List Nat) (fl : FlightData) (v1 bad v2 : List Nat)
    (d1 d2 : TelemetryDataPoint)
    (hv1t : trim v1 ≠ []) (hv1 : p v1 = some d1)
    (hbt : trim bad ≠ []) (hb : p bad = none)
    (hv2t : trim v2 ≠ []) (hv2 : p v2 = some d2) :
    (processLines p m id fl [v1, bad, v2]).1 =
      (processLines p m id fl [v1, v2]).1 ∧
    (processLines p m id fl [v1, bad, v2]).2 =
      (processLine p m id fl v1).2 ++ [OutLine.parseFail bad] ++
        (processLine p m id (processLine p m id fl v1).1 v2).2 ∧
    (processLines p m id fl [v1, bad, v2]).2.countP isParseFailure = 1 := by
  have hbad : ∀ g : FlightData,
      processLine p m id g bad = (g, [OutLine.parseFail bad]) := by
    intro g
    simp [processLine, hbt, hb]
  refine ⟨?_, ?_, ?_⟩
  · simp [processLines, hbad]
  · simp [processLines, hbad]
  · simp only [processLines, hbad, List.countP_append, List.append_nil]
    rw [processLine_parsed_no_fail p m id fl v1 d1 hv1,
      processLine_parsed_no_fail p m id _ v2 d2 hv2]
    simp [List.countP_cons, isParseFailure]

/-- Witness for C6: valid records `A` and `B` around the unparseable,
non-blank record `C`. -/
theorem c6_witness :
    trim [67] ≠ [] ∧ pDemo [67] = none ∧
    pDemo [65] = some { timestamp := tmA, fuelRemaining := 100 } ∧
    pDemo [66] = some { timestamp := tmB, fuelRemaining := 95 } ∧
    (processLines pDemo mDemo [73] FlightData.init [[65], [67], [66]]).1 =
      (processLines pDemo mDemo [73] FlightData.init [[65], [66]]).1 ∧
    (processLines pDemo mDemo [73] FlightData.init
      [[65], [67], [66]]).2.countP isParseFailure = 1 :=
  ⟨by decide, by decide, by decide, by decide,
    (c6_malformed_between_valid pDemo mDemo [73] FlightData.init [65] [67] [66]
      { timestamp := tmA, fuelRemaining := 100 }
      { timestamp := tmB, fuelRemaining := 95 }
      (by decide) (by decide) (by decide) (by decide) (by decide) (by decide)).1,
    (c6_malformed_between_valid pDemo mDemo [73] FlightData.init [65] [67] [66]
      { timestamp := tmA, fuelRemaining := 100 }
      { timestamp := tmB, fuelRemaining := 95 }
      (by decide) (by decide) (by decide) (by decide) (by decide) (by decide)).2.2⟩

/-- C8: the per-reading console message of Source.cpp lines 114–117 is
never a single line — `asctime` (C standard) ends its 24-character
timestamp with a newline, so for every identifier, timestamp, fuel, rate
and numeric formatting the rendered message contains an embedded newline
byte that is not its final byte, splitting the message into two lines
before ` Fuel Remaining:`. -/
theorem c8_reading_line_embedded_newline (showQ : ℚ → List Nat)
    (id : List Nat) (t : Tm) (fuel rate : ℚ) :
    ∃ l r, renderLine showQ (OutLine.reading id t fuel rate) = l ++ 10 :: r ∧
      r ≠ [] := by
  refine ⟨ascii ("Airplane ") ++ id ++ ascii (" | ") ++ asctimeChars t,
    ascii (" Fuel Remaining: ") ++ showQ fuel ++
      ascii (" | Current Consumption: ") ++ showQ rate ++
      ascii (" fuel/sec") ++ [10], ?_, ?_⟩
  · simp [renderLine, asctime, List.append_assoc]
  · intro hc
    exact absurd (List.append_eq_nil.mp hc).2 (by simp)

/-- C10 counterexample: on the chunks `A NUL B \n` and `C \n` the
C-string append truncates the first chunk at its NUL, dropping `B` and
the newline after it, so the code's identifier is `AC` — not the bytes
`A NUL B` preceding the first newline of the raw stream. The claim's
"for any input" is therefore false of the code. -/
theorem c10_counterexample :
    awaitId [] [[65, 0, 66, 10], [67, 10]] = some ([65, 67], [], []) ∧
    (handleClient pDemo mDemo [[65, 0, 66, 10], [67, 10]]).head? =
      some (OutLine.connected [65, 67]) ∧
    ([[65, 0, 66, 10], [67, 10]] : List (List Nat)).flatten.takeWhile
      (fun b => b ≠ 10) = [65, 0, 66] ∧
    ([65, 67] : List Nat) ≠ [65, 0, 66] := by decide

/-- C10 (amended): for every input in which no chunk contains a NUL
byte and whose byte stream contains a newline, the session identifier
is taken verbatim as all bytes preceding the first newline, with no
trimming or validation — leading/trailing whitespace and a carriage
return before the newline stay part of it — and every console message
that carries an identifier carries exactly those bytes; the rendering
embeds the carried identifier verbatim as a contiguous byte run in the
output line. (For a chunk containing a NUL, the C-string append drops
the NUL and the bytes after it, as recorded under C4 and in the
counterexample above.) -/
theorem c10_session_id_verbatim (p : List Nat → Option TelemetryDataPoint)
    (m : Tm → Int) (chunks : List (List Nat))
    (hN : ∀ c ∈ chunks, (0 : Nat) ∉ c)
    (h10 : (10 : Nat) ∈ chunks.flatten) :
    (∃ rest cs, awaitId [] chunks =
      some (chunks.flatten.takeWhile (fun b => b ≠ 10), rest, cs)) ∧
    ((handleClient p m chunks).head? =
      some (OutLine.connected (chunks.flatten.takeWhile (fun b => b ≠ 10)))) ∧
    (∀ e ∈ handleClient p m chunks, ∀ i, eventId e = some i →
      i = chunks.flatten.takeWhile (fun b => b ≠ 10)) ∧
    (∀ (showQ : ℚ → List Nat) (e : OutLine) (i : List Nat),
      eventId e = some i → ∃ l r, renderLine showQ e = l ++ i ++ r) := by
  obtain ⟨rest, cs, hA⟩ := awaitId_found chunks [] (by simp) hN h10
  rw [List.nil_append] at hA
  refine ⟨⟨rest, cs, hA⟩, ?_, ?_, ?_⟩
  · simp [handleClient, hA]
  · exact handleClient_eventId p m chunks _ rest cs hA
  · intro showQ e i hi
    cases e with
    | connected j =>
      simp only [eventId, Option.some_inj] at hi
      subst hi
      exact ⟨ascii ("Connected client, airplane ID: "), [10], rfl⟩
    | reading j tmv fu ra =>
      simp only [eventId, Option.some_inj] at hi
      subst hi
      refine ⟨ascii ("Airplane "),
        ascii (" | ") ++ asctime tmv ++ ascii (" Fuel Remaining: ") ++
          showQ fu ++ ascii (" | Current Consumption: ") ++ showQ ra ++
          ascii (" fuel/sec") ++ [10], ?_⟩
      simp [renderLine, List.append_assoc]
    | parseFail l => simp [eventId] at hi
    | summary j avg =>
      simp only [eventId, Option.some_inj] at hi
      subst hi
      refine ⟨ascii ("Flight for airplane "),
        ascii (" ended. Average Fuel Consumption: ") ++ showQ avg ++
          ascii (" fuel/sec") ++ [10], ?_⟩
      simp [renderLine, List.append_assoc]

/-- Witness for the amended C10 on the identifier line `" A\r\n"` (leading space and
carriage return kept) followed by a telemetry chunk. -/
theorem c10_witness :
    (∀ c ∈ ([[32, 65, 13, 10], [65, 10]] : List (List Nat)), (0 : Nat) ∉ c) ∧
    ((10 : Nat) ∈ ([[32, 65, 13, 10], [65, 10]] : List (List Nat)).flatten) ∧
    (([[32, 65, 13, 10], [65, 10]] : List (List Nat)).flatten.takeWhile
      (fun b => b ≠ 10) = [32, 65, 13]) ∧
    (∀ e ∈ handleClient pDemo mDemo [[32, 65, 13, 10], [65, 10]],
      ∀ i, eventId e = some i →
        i = ([[32, 65, 13, 10], [65, 10]] : List (List Nat)).flatten.takeWhile
          (fun b => b ≠ 10)) :=
  ⟨by decide, by decide, by decide,
    (c10_session_id_verbatim pDemo mDemo [[32, 65, 13, 10], [65, 10]]
      (by decide) (by decide)).2.2.1⟩
